import Mathlib

/-!
Verification of the `BitcoinDotComAPI` REST client
(`src/bitcash/network/APIs/BitcoinDotComAPI.py`).

The client is shallowly embedded: HTTP responses become structured records
(the JSON fields the code reads), Python `decimal.Decimal` values become
mantissa/exponent pairs with exact rational semantics, Python exceptions
become `Except` errors, and Python strings (where sliced or concatenated)
become `List Char`.
-/

namespace Bitcash

/-! ### Python `decimal.Decimal`

A `Decimal` value denotes `mantissa * 10 ^ exp`.  Multiplication by an
integer and `normalize()` (strip trailing zeros of the coefficient;
a zero value normalizes to `0E+0`) are the only operations the source uses. -/

structure Decimal where
  mantissa : Int
  exp : Int
  deriving Repr, DecidableEq

/-- The exact rational value of a `Decimal`. -/
def Decimal.toRat (d : Decimal) : ℚ := (d.mantissa : ℚ) * (10 : ℚ) ^ d.exp

/-- `decimal.Decimal(n)` for an integer `n`. -/
def Decimal.ofInt (n : Int) : Decimal := ⟨n, 0⟩

/-- Exact multiplication of decimals: coefficients multiply, exponents add. -/
def Decimal.mul (a b : Decimal) : Decimal := ⟨a.mantissa * b.mantissa, a.exp + b.exp⟩

/-- Strip trailing zeros from a nonzero coefficient, bumping the exponent;
`fuel` bounds the recursion (any bound at least the number of trailing
zeros gives the same answer). -/
def stripZeros : Nat → Int → Int → Int × Int
  | 0, m, e => (m, e)
  | fuel + 1, m, e =>
    if m % 10 = 0 then stripZeros fuel (m / 10) (e + 1) else (m, e)

/-- Python `Decimal.normalize()`: reduce to the simplest exact form, so
trailing zeros of the coefficient move into the exponent and a zero value
becomes `0E+0`. -/
def Decimal.normalize (d : Decimal) : Decimal :=
  if d.mantissa = 0 then ⟨0, 0⟩
  else
    let p := stripZeros d.mantissa.natAbs d.mantissa d.exp
    ⟨p.1, p.2⟩

/-- A `Decimal` denotes an integer. -/
def Decimal.IsInt (d : Decimal) : Prop := ∃ n : ℤ, d.toRat = (n : ℚ)

/-- `BCH_TO_SAT_MULTIPLIER` from the source. -/
def BCH_TO_SAT_MULTIPLIER : Int := 100000000

/-- `(Decimal(v) * BCH_TO_SAT_MULTIPLIER).normalize()`, the conversion
expression used by `get_transaction` and `get_tx_amount`. -/
def toSatoshis (d : Decimal) : Decimal :=
  (d.mul (Decimal.ofInt BCH_TO_SAT_MULTIPLIER)).normalize

/-! ### Parsing decimal strings

Python `Decimal("123.45")` parses an optional sign, an integer part and an
optional fractional part into coefficient and exponent, exactly. -/

/-- Digit characters to their value, `none` on a non-digit. -/
def digitVal (c : Char) : Option Nat :=
  if c.isDigit then some (c.toNat - '0'.toNat) else none

/-- Fold a digit run onto an accumulator; `none` if any char is a non-digit. -/
def parseDigits : List Char → Nat → Option Nat
  | [], acc => some acc
  | c :: cs, acc =>
    match digitVal c with
    | none => none
    | some v => parseDigits cs (acc * 10 + v)

/-- Parse an unsigned decimal literal `intpart[.fracpart]` into a `Decimal`
with exponent `-(number of fractional digits)`. -/
def parseUnsignedDecimal (s : List Char) : Option Decimal :=
  match s.splitOn '.' with
  | [ip] =>
    if ip = [] then none
    else (parseDigits ip 0).map (fun m => ⟨(m : Int), 0⟩)
  | [ip, fp] =>
    if ip = [] ∧ fp = [] then none
    else
      match parseDigits ip 0, parseDigits fp 0 with
      | some mi, some mf => some ⟨(mi : Int) * (10 : Int) ^ fp.length + (mf : Int), -(fp.length : Int)⟩
      | _, _ => none
  | _ => none

/-- Parse a decimal literal with an optional leading sign. -/
def parseDecimal (s : List Char) : Option Decimal :=
  match s with
  | '-' :: rest => (parseUnsignedDecimal rest).map (fun d => ⟨-d.mantissa, d.exp⟩)
  | '+' :: rest => parseUnsignedDecimal rest
  | _ => parseUnsignedDecimal s

/-! ### Exceptions and dynamic values -/

/-- The Python exceptions the embedded code can raise. -/
inductive PyError where
  | invalidEndpointURLProvided
  | indexError
  deriving Repr, DecidableEq

/-- A dynamically typed Python value, as far as the constructor's
`isinstance` check needs to distinguish: a string, or anything else. -/
inductive PyVal where
  | str : List Char → PyVal
  | int : Int → PyVal
  | none : PyVal
  deriving Repr, DecidableEq

/-! ### `BitcoinDotComAPI.__init__` and URL construction -/

/-- `network_endpoint[:4] == "http" and network_endpoint[-4:] == "/v2/"`:
Python slices clamp, so `take`/`drop` with truncating subtraction match. -/
def valid_endpoint (s : List Char) : Bool :=
  (s.take 4 == "http".toList) && (s.drop (s.length - 4) == "/v2/".toList)

/-- The state a successfully constructed client holds. -/
structure BitcoinDotComAPI where
  network_endpoint : List Char
  deriving Repr, DecidableEq

/-- `BitcoinDotComAPI.__init__`: the `assert isinstance/str`, prefix and
suffix checks; any `AssertionError` is caught and re-raised as
`InvalidEndpointURLProvided`; otherwise the endpoint is stored unchanged. -/
def BitcoinDotComAPI.init (network_endpoint : PyVal) : Except PyError BitcoinDotComAPI :=
  match network_endpoint with
  | .str s =>
    if valid_endpoint s then .ok ⟨s⟩ else .error .invalidEndpointURLProvided
  | _ => .error .invalidEndpointURLProvided

/-- The `PATHS` class dictionary. -/
def PATHS (path : List Char) : Option (List Char) :=
  if path = "unspent".toList then some "address/utxo/\x7b\x7d".toList
  else if path = "address".toList then some "address/details/\x7b\x7d".toList
  else if path = "raw-tx".toList then some "rawtransactions/sendRawTransaction/\x7b\x7d".toList
  else if path = "tx-details".toList then some "transaction/details/\x7b\x7d".toList
  else none

/-- `make_endpoint_url`: `self.network_endpoint + self.PATHS[path]`
(`none` models the `KeyError` of an unknown path key). -/
def BitcoinDotComAPI.make_endpoint_url (api : BitcoinDotComAPI) (path : List Char) :
    Option (List Char) :=
  (PATHS path).map (fun t => api.network_endpoint ++ t)

/-- Python `str.format` with a single argument: substitute the first
`\x7b\x7d` slot. -/
def pyFormat : List Char → List Char → List Char
  | [], _ => []
  | '{' :: '}' :: rest, arg => arg ++ rest
  | c :: rest, arg => c :: pyFormat rest arg

/-! ### Response documents and domain objects

Responses are modelled as records of the JSON fields the code reads;
numeric coin-amount fields carry the `parse_float=Decimal` parse. -/

/-- One entry of a `vin` array: the fields `get_transaction` reads. -/
structure VinEntry where
  cashAddress : String
  value : Decimal
  scriptSig_asm : String
  deriving Repr, DecidableEq

/-- The `scriptPubKey` object of a `vout` entry.  `cashAddrs` is `none`
when the key is missing, `some none` when it is present but null, and
`some (some l)` when it holds a list. -/
structure ScriptPubKeyObj where
  asm : String
  cashAddrs : Option (Option (List String))
  deriving Repr, DecidableEq

/-- One entry of a `vout` array: the fields the code reads. -/
structure VoutEntry where
  value : Decimal
  scriptPubKey : ScriptPubKeyObj
  deriving Repr, DecidableEq

/-- A `transaction/details` response document. -/
structure TxResponse where
  txid : String
  blockheight : Int
  valueIn : Decimal
  valueOut : Decimal
  fees : Decimal
  vin : List VinEntry
  vout : List VoutEntry
  deriving Repr, DecidableEq

/-- Modelled from the spec: `TxPart` (from `bitcash.network.transaction`,
not under `src/`) is a value object holding an optional address, an
amount, and a script string. -/
structure TxPart where
  address : Option String
  amount : Decimal
  script : String
  deriving Repr, DecidableEq

/-- Modelled from the spec: `Transaction` (from
`bitcash.network.transaction`, not under `src/`) holds the header fields
plus the input and output parts; `add_input`/`add_output` append in call
order, which the embedding realizes by building the part lists in
iteration order. -/
structure Transaction where
  txid : String
  blockheight : Int
  amount_in : Decimal
  amount_out : Decimal
  amount_fee : Decimal
  inputs : List TxPart
  outputs : List TxPart
  deriving Repr, DecidableEq

/-- The input `TxPart` built from a `vin` entry:
`TxPart(txin["cashAddress"], txin["value"], txin["scriptSig"]["asm"])` —
the `value` field is passed through unconverted. -/
def mkInputPart (txin : VinEntry) : TxPart :=
  ⟨some txin.cashAddress, txin.value, txin.scriptSig_asm⟩

/-- The output `TxPart` built from a `vout` entry: the address is
`cashAddrs[0]` when that key exists and is non-null (`[0]` on an empty
list raises `IndexError`), else `None`; the amount is the converted
`value`; the script is `scriptPubKey.asm`. -/
def mkOutputPart (txout : VoutEntry) : Except PyError TxPart :=
  match txout.scriptPubKey.cashAddrs with
  | Option.none => .ok ⟨none, toSatoshis txout.value, txout.scriptPubKey.asm⟩
  | some Option.none => .ok ⟨none, toSatoshis txout.value, txout.scriptPubKey.asm⟩
  | some (some []) => .error .indexError
  | some (some (a :: _)) => .ok ⟨some a, toSatoshis txout.value, txout.scriptPubKey.asm⟩

/-- The `for txout in response["vout"]` loop: build each part in order,
propagating the first exception. -/
def buildOutputs : List VoutEntry → Except PyError (List TxPart)
  | [] => .ok []
  | e :: es =>
    match mkOutputPart e with
    | .error err => .error err
    | .ok p =>
      match buildOutputs es with
      | .error err => .error err
      | .ok ps => .ok (p :: ps)

/-- `get_transaction`, applied to an already-fetched response document. -/
def get_transaction (response : TxResponse) : Except PyError Transaction :=
  match buildOutputs response.vout with
  | .error err => .error err
  | .ok outs =>
    .ok { txid := response.txid
          blockheight := response.blockheight
          amount_in := toSatoshis response.valueIn
          amount_out := toSatoshis response.valueOut
          amount_fee := toSatoshis response.fees
          inputs := response.vin.map mkInputPart
          outputs := outs }

/-- `get_tx_amount`, applied to an already-fetched response document:
index into `vout`, raising `IndexError` past the end, and convert. -/
def get_tx_amount (response : TxResponse) (txindex : Nat) : Except PyError Decimal :=
  match response.vout.get? txindex with
  | Option.none => .error .indexError
  | some entry => .ok (toSatoshis entry.value)

/-- `get_balance`, applied to an already-fetched response document:
`data["balanceSat"] + data["unconfirmedBalanceSat"]`. -/
def get_balance (balanceSat unconfirmedBalanceSat : Int) : Int :=
  balanceSat + unconfirmedBalanceSat

/-! ### `get_unspent` -/

/-- One entry of the `utxos` array.  The per-entry `scriptPubKey` field is
carried (it may be present in a response) but the code never reads it. -/
structure UtxoEntry where
  amount : Decimal
  confirmations : Int
  txid : String
  vout : Nat
  scriptPubKey : Option String
  deriving Repr, DecidableEq

/-- An `address/utxo` response document: a top-level `scriptPubKey` and
the `utxos` array. -/
structure UnspentResponse where
  scriptPubKey : String
  utxos : List UtxoEntry
  deriving Repr, DecidableEq

/-- Modelled from the spec: `Unspent` (from `bitcash.network.meta`, not
under `src/`) is a value object of amount (smallest unit), confirmation
count, locking script, source txid and output index. -/
structure Unspent where
  amount : Int
  confirmations : Int
  script : String
  txid : String
  txindex : Nat
  deriving Repr, DecidableEq

/-- Modelled from the spec: `currency_to_satoshi` (from
`bitcash.network`, not under `src/`) converts a decimal coin amount to an
integer in the smallest unit by exact decimal multiplication with `10^8`
followed by normalization. -/
def currency_to_satoshi (amount : Decimal) : Int :=
  let d := toSatoshis amount
  d.mantissa * (10 : Int) ^ d.exp.toNat

/-- `get_unspent`, applied to an already-fetched response document: one
`Unspent` per `utxos` entry, whose script is the top-level
`scriptPubKey` of the response. -/
def get_unspent (response : UnspentResponse) : List Unspent :=
  response.utxos.map (fun tx =>
    ⟨currency_to_satoshi tx.amount, tx.confirmations, response.scriptPubKey,
     tx.txid, tx.vout⟩)

/-- `broadcast_tx`: `r.status_code == 200`, with no `raise_for_status`
call, so every status code yields a boolean. -/
def broadcast_tx (status_code : Nat) : Bool :=
  status_code == 200

/-! ### Exactness of the decimal arithmetic -/

theorem Decimal.toRat_mul (a b : Decimal) : (a.mul b).toRat = a.toRat * b.toRat := by
  simp only [Decimal.mul, Decimal.toRat]
  rw [zpow_add₀ (by norm_num : (10 : ℚ) ≠ 0)]
  push_cast
  ring

theorem stripZeros_toRat (fuel : Nat) (m e : Int) :
    ((stripZeros fuel m e).1 : ℚ) * (10 : ℚ) ^ (stripZeros fuel m e).2
      = (m : ℚ) * (10 : ℚ) ^ e := by
  induction fuel generalizing m e with
  | zero => simp [stripZeros]
  | succ fuel ih =>
    by_cases h : m % 10 = 0
    · have hdvd : (10 : ℤ) ∣ m := Int.dvd_of_emod_eq_zero h
      have hm : m / 10 * 10 = m := Int.ediv_mul_cancel hdvd
      simp only [stripZeros, if_pos h]
      rw [ih]
      rw [zpow_add_one₀ (by norm_num : (10 : ℚ) ≠ 0)]
      calc ((m / 10 : ℤ) : ℚ) * ((10 : ℚ) ^ e * 10)
          = (((m / 10 * 10 : ℤ)) : ℚ) * (10 : ℚ) ^ e := by push_cast; ring
        _ = (m : ℚ) * (10 : ℚ) ^ e := by rw [hm]
    · have h2 : ¬(10 : ℤ) ∣ m := fun hd => h (Int.emod_eq_zero_of_dvd hd)
      simp [stripZeros, h, h2]

theorem Decimal.toRat_normalize (d : Decimal) : d.normalize.toRat = d.toRat := by
  by_cases h : d.mantissa = 0
  · simp [Decimal.normalize, h, Decimal.toRat]
  · simp only [Decimal.normalize, if_neg h]
    show ((stripZeros d.mantissa.natAbs d.mantissa d.exp).1 : ℚ)
        * (10 : ℚ) ^ (stripZeros d.mantissa.natAbs d.mantissa d.exp).2 = _
    rw [stripZeros_toRat]
    rfl

theorem stripZeros_exp_le (fuel : Nat) (m e : Int) : e ≤ (stripZeros fuel m e).2 := by
  induction fuel generalizing m e with
  | zero => simp [stripZeros]
  | succ fuel ih =>
    by_cases h : m % 10 = 0
    · simp only [stripZeros, if_pos h]
      exact le_trans (by omega) (ih (m / 10) (e + 1))
    · have h2 : ¬(10 : ℤ) ∣ m := fun hd => h (Int.emod_eq_zero_of_dvd hd)
      simp [stripZeros, h, h2]

theorem stripZeros_exp_ge (fuel k : Nat) (m e : Int) (hm : m ≠ 0)
    (hdvd : (10 : ℤ) ^ k ∣ m) (hfuel : k ≤ fuel) :
    e + k ≤ (stripZeros fuel m e).2 := by
  induction fuel generalizing m e k with
  | zero =>
    have : k = 0 := Nat.le_zero.mp hfuel
    subst this
    simp [stripZeros]
  | succ fuel ih =>
    cases k with
    | zero =>
      have := stripZeros_exp_le (fuel + 1) m e
      omega
    | succ k =>
      have hd10 : (10 : ℤ) ∣ m := dvd_trans (dvd_pow_self 10 (Nat.succ_ne_zero k)) hdvd
      have h : m % 10 = 0 := Int.emod_eq_zero_of_dvd hd10
      simp only [stripZeros, if_pos h]
      obtain ⟨c, hc⟩ := hdvd
      have hc10 : m = 10 * ((10 : ℤ) ^ k * c) := by rw [hc]; ring
      have hq : m / 10 = (10 : ℤ) ^ k * c := by
        rw [hc10, Int.mul_ediv_cancel_left _ (by norm_num : (10 : ℤ) ≠ 0)]
      have hm10 : m / 10 ≠ 0 := by
        intro h0
        apply hm
        rw [hc10, ← hq, h0, mul_zero]
      have hdvd10 : (10 : ℤ) ^ k ∣ m / 10 := ⟨c, hq⟩
      have := ih k (m / 10) (e + 1) hm10 hdvd10 (Nat.le_of_succ_le_succ hfuel)
      push_cast at this ⊢
      omega

theorem toSatoshis_toRat (d : Decimal) : (toSatoshis d).toRat = d.toRat * 100000000 := by
  rw [toSatoshis, Decimal.toRat_normalize, Decimal.toRat_mul]
  have : (Decimal.ofInt BCH_TO_SAT_MULTIPLIER).toRat = 100000000 := by
    simp [Decimal.ofInt, Decimal.toRat, BCH_TO_SAT_MULTIPLIER]
  rw [this]

theorem toSatoshis_exp_nonneg (d : Decimal) (h : -8 ≤ d.exp) : 0 ≤ (toSatoshis d).exp := by
  by_cases hm : d.mantissa = 0
  · simp [toSatoshis, Decimal.mul, Decimal.ofInt, Decimal.normalize, hm, BCH_TO_SAT_MULTIPLIER]
  · have hmul : (d.mul (Decimal.ofInt BCH_TO_SAT_MULTIPLIER)).mantissa
        = d.mantissa * 100000000 := rfl
    have hexp : (d.mul (Decimal.ofInt BCH_TO_SAT_MULTIPLIER)).exp = d.exp := by
      simp [Decimal.mul, Decimal.ofInt]
    have hm0 : d.mantissa * 100000000 ≠ 0 := by
      exact mul_ne_zero hm (by norm_num)
    have hdvd : (10 : ℤ) ^ 8 ∣ d.mantissa * 100000000 := ⟨d.mantissa, by ring⟩
    have hfuel : 8 ≤ (d.mantissa * 100000000).natAbs := by
      have h1 : (d.mantissa * 100000000).natAbs = d.mantissa.natAbs * 100000000 := by
        rw [Int.natAbs_mul]
        rfl
      have h2 : 1 ≤ d.mantissa.natAbs := Nat.one_le_iff_ne_zero.mpr (Int.natAbs_ne_zero.mpr hm)
      calc (8 : Nat) ≤ 1 * 100000000 := by norm_num
        _ ≤ d.mantissa.natAbs * 100000000 := Nat.mul_le_mul_right _ h2
        _ = (d.mantissa * 100000000).natAbs := h1.symm
    have := stripZeros_exp_ge (d.mantissa * 100000000).natAbs 8
      (d.mantissa * 100000000) d.exp hm0 hdvd hfuel
    simp only [toSatoshis, Decimal.normalize, hmul, hexp, if_neg hm0]
    push_cast at this
    omega

theorem Decimal.isInt_of_exp_nonneg (d : Decimal) (h : 0 ≤ d.exp) : d.IsInt := by
  refine ⟨d.mantissa * 10 ^ d.exp.toNat, ?_⟩
  simp only [Decimal.toRat]
  push_cast
  rw [← zpow_natCast (10 : ℚ) d.exp.toNat, Int.toNat_of_nonneg h]

theorem toSatoshis_isInt (d : Decimal) (h : -8 ≤ d.exp) : (toSatoshis d).IsInt :=
  Decimal.isInt_of_exp_nonneg _ (toSatoshis_exp_nonneg d h)

theorem Decimal.toRat_of_exp_nonneg (d : Decimal) (h : 0 ≤ d.exp) :
    ((d.mantissa * 10 ^ d.exp.toNat : ℤ) : ℚ) = d.toRat := by
  simp only [Decimal.toRat]
  push_cast
  rw [← zpow_natCast (10 : ℚ) d.exp.toNat, Int.toNat_of_nonneg h]

theorem currency_to_satoshi_exact (a : Decimal) (h : -8 ≤ a.exp) :
    ((currency_to_satoshi a : ℤ) : ℚ) = a.toRat * 100000000 := by
  show (((toSatoshis a).mantissa * 10 ^ (toSatoshis a).exp.toNat : ℤ) : ℚ) = _
  rw [Decimal.toRat_of_exp_nonneg _ (toSatoshis_exp_nonneg a h), toSatoshis_toRat]

/-! ### Correspondence lemmas for the `vout` loop -/

theorem buildOutputs_ok_length (es : List VoutEntry) (ps : List TxPart)
    (h : buildOutputs es = .ok ps) : ps.length = es.length := by
  induction es generalizing ps with
  | nil =>
    simp only [buildOutputs] at h
    cases h
    rfl
  | cons e es ih =>
    simp only [buildOutputs] at h
    cases he : mkOutputPart e with
    | error err => rw [he] at h; cases h
    | ok p =>
      rw [he] at h
      cases hes : buildOutputs es with
      | error err => rw [hes] at h; cases h
      | ok ps2 =>
        rw [hes] at h
        cases h
        simp [ih ps2 hes]

theorem buildOutputs_ok_get (es : List VoutEntry) (ps : List TxPart)
    (h : buildOutputs es = .ok ps) (i : Nat) (hi : i < es.length) (hp : i < ps.length) :
    mkOutputPart (es.get ⟨i, hi⟩) = .ok (ps.get ⟨i, hp⟩) := by
  induction es generalizing ps i with
  | nil => exact absurd hi (by simp)
  | cons e es ih =>
    simp only [buildOutputs] at h
    cases he : mkOutputPart e with
    | error err => rw [he] at h; cases h
    | ok p =>
      rw [he] at h
      cases hes : buildOutputs es with
      | error err => rw [hes] at h; cases h
      | ok ps2 =>
        rw [hes] at h
        cases h
        cases i with
        | zero => simpa using he
        | succ i =>
          have hi2 : i < es.length := by simpa using hi
          have hp2 : i < ps2.length := by simpa using hp
          simpa using ih ps2 hes i hi2 hp2

theorem buildOutputs_ok_mem (es : List VoutEntry) (ps : List TxPart)
    (h : buildOutputs es = .ok ps) (p : TxPart) (hp : p ∈ ps) :
    ∃ e ∈ es, mkOutputPart e = .ok p := by
  induction es generalizing ps with
  | nil =>
    simp only [buildOutputs] at h
    cases h
    cases hp
  | cons e es ih =>
    simp only [buildOutputs] at h
    cases he : mkOutputPart e with
    | error err => rw [he] at h; cases h
    | ok p0 =>
      rw [he] at h
      cases hes : buildOutputs es with
      | error err => rw [hes] at h; cases h
      | ok ps2 =>
        rw [hes] at h
        cases h
        rcases List.mem_cons.mp hp with hp0 | hp2
        · exact ⟨e, List.mem_cons_self _ _, hp0 ▸ he⟩
        · obtain ⟨e2, he2, hmk⟩ := ih ps2 hes hp2
          exact ⟨e2, List.mem_cons_of_mem _ he2, hmk⟩

theorem get_transaction_ok (response : TxResponse) (tx : Transaction)
    (h : get_transaction response = .ok tx) :
    tx.inputs = response.vin.map mkInputPart ∧
    buildOutputs response.vout = .ok tx.outputs ∧
    tx.amount_in = toSatoshis response.valueIn ∧
    tx.amount_out = toSatoshis response.valueOut ∧
    tx.amount_fee = toSatoshis response.fees := by
  unfold get_transaction at h
  cases hb : buildOutputs response.vout with
  | error err => rw [hb] at h; cases h
  | ok outs =>
    rw [hb] at h
    cases h
    exact ⟨rfl, rfl, rfl, rfl, rfl⟩

theorem mkOutputPart_ok_amount (txout : VoutEntry) (p : TxPart)
    (h : mkOutputPart txout = .ok p) : p.amount = toSatoshis txout.value := by
  cases hca : txout.scriptPubKey.cashAddrs with
  | none => simp only [mkOutputPart, hca] at h; cases h; rfl
  | some o =>
    cases o with
    | none => simp only [mkOutputPart, hca] at h; cases h; rfl
    | some l =>
      cases l with
      | nil => simp only [mkOutputPart, hca] at h; cases h
      | cons a rest => simp only [mkOutputPart, hca] at h; cases h; rfl

/-! ### The claims -/

/-- C1: every `Unspent` returned by `get_unspent` carries as its script
the top-level response key `scriptPubKey` — the same value for every
entry of the `utxos` array — and not the per-entry `scriptPubKey` field:
the result is unchanged however the per-entry fields are rewritten. -/
theorem C1_unspent_script_from_top_level (response : UnspentResponse) (u : Unspent)
    (hu : u ∈ get_unspent response) :
    u.script = response.scriptPubKey ∧
    ∀ f : UtxoEntry → Option String,
      get_unspent
        { response with utxos := response.utxos.map (fun e => { e with scriptPubKey := f e }) }
        = get_unspent response := by
  constructor
  · simp only [get_unspent, List.mem_map] at hu
    obtain ⟨e, _, rfl⟩ := hu
    rfl
  · intro f
    simp only [get_unspent, List.map_map]
    rfl

/-- Witness for C1 at a concrete response holding one UTXO entry whose
own `scriptPubKey` differs from the top-level one. -/
theorem C1_unspent_script_from_top_level_witness :
    (Unspent.mk 123000000 3 "topScript" "txid0" 0).script
        = (UnspentResponse.mk "topScript" [⟨⟨123, -2⟩, 3, "txid0", 0, some "entryScript"⟩]).scriptPubKey ∧
    ∀ f : UtxoEntry → Option String,
      get_unspent
        { UnspentResponse.mk "topScript" [⟨⟨123, -2⟩, 3, "txid0", 0, some "entryScript"⟩] with
          utxos := (UnspentResponse.mk "topScript" [⟨⟨123, -2⟩, 3, "txid0", 0, some "entryScript"⟩]).utxos.map
            (fun e => { e with scriptPubKey := f e }) }
        = get_unspent (UnspentResponse.mk "topScript" [⟨⟨123, -2⟩, 3, "txid0", 0, some "entryScript"⟩]) :=
  C1_unspent_script_from_top_level
    (UnspentResponse.mk "topScript" [⟨⟨123, -2⟩, 3, "txid0", 0, some "entryScript"⟩])
    (Unspent.mk 123000000 3 "topScript" "txid0" 0) (by decide)

/-- C2: `broadcast_tx` yields `true` exactly for status code 200 and
`false` for every other status code (201, 404 and 500 included);
being a total function into `Bool`, it raises nothing. -/
theorem C2_broadcast_tx_true_iff_200 (status_code : Nat) :
    (broadcast_tx status_code = true ↔ status_code = 200) ∧
    broadcast_tx 201 = false ∧ broadcast_tx 404 = false ∧ broadcast_tx 500 = false := by
  refine ⟨?_, rfl, rfl, rfl⟩
  simp [broadcast_tx]

/-- C3: the conversion `(Decimal(v) * 10^8).normalize()` is exact: parsing
`"0.00000001"` converts to the integer `1`, parsing `"1.23456789"`
converts to `123456789`, and every parsed decimal string with at most 8
fractional digits (exponent at least `-8`) converts to exactly its value
times `10^8`, an integer, with no rounding drift. -/
theorem C3_conversion_exact :
    (∀ (s : List Char) (d : Decimal), parseDecimal s = some d → -8 ≤ d.exp →
        (toSatoshis d).toRat = d.toRat * 100000000 ∧ (toSatoshis d).IsInt) ∧
    (parseDecimal "0.00000001".toList).map toSatoshis = some ⟨1, 0⟩ ∧
    (parseDecimal "1.23456789".toList).map toSatoshis = some ⟨123456789, 0⟩ ∧
    Decimal.toRat ⟨1, 0⟩ = 1 ∧ Decimal.toRat ⟨123456789, 0⟩ = 123456789 := by
  refine ⟨fun s d _ h => ⟨toSatoshis_toRat d, toSatoshis_isInt d h⟩, by decide, by decide, ?_, ?_⟩
  · simp [Decimal.toRat]
  · simp [Decimal.toRat]

/-- Witness for C3 at the parse of `"0.00000001"`. -/
theorem C3_conversion_exact_witness :
    parseDecimal "0.00000001".toList = some ⟨1, -8⟩ ∧
    ((toSatoshis ⟨1, -8⟩).toRat = (Decimal.mk 1 (-8)).toRat * 100000000 ∧
      (toSatoshis ⟨1, -8⟩).IsInt) :=
  ⟨by decide, C3_conversion_exact.1 "0.00000001".toList ⟨1, -8⟩ (by decide) (by decide)⟩

/-- A response whose single `vin` entry carries the fractional value
`0.5`: `get_transaction` passes `vin` values through unconverted. -/
def c4Response : TxResponse :=
  { txid := "t", blockheight := 0, valueIn := ⟨0, 0⟩, valueOut := ⟨0, 0⟩, fees := ⟨0, 0⟩,
    vin := [⟨"addr", ⟨5, -1⟩, "sig"⟩], vout := [] }

/-- Counterexample to C4 as stated: on a response whose `vin` entry has
the fractional `value` `0.5`, `get_transaction` succeeds and stores that
fractional value unconverted as an input `TxPart` amount, so not every
amount exposed to the caller is an integer in the smallest unit. -/
theorem C4_counterexample_fractional_vin :
    ∃ tx : Transaction, get_transaction c4Response = .ok tx ∧
      ∃ p ∈ tx.inputs, ¬ p.amount.IsInt := by
  refine ⟨_, rfl, ⟨some "addr", ⟨5, -1⟩, "sig"⟩, by decide, ?_⟩
  rintro ⟨n, hn⟩
  have h1 : (Decimal.mk 5 (-1)).toRat = 1 / 2 := by
    simp [Decimal.toRat]
    norm_num
  rw [h1] at hn
  have h2 : (1 : ℚ) = 2 * n := by linarith
  have h3 : (1 : ℤ) = 2 * n := by exact_mod_cast h2
  omega

/-- C4 amended: amounts exposed by `get_transaction`, `get_tx_amount` and
`get_unspent` are integers in the smallest unit provided the response is
well-formed — each `vin` entry's `value` is itself an integer (the code
passes it through without conversion) and every decimal coin amount has
at most 8 fractional digits; `get_unspent` amounts moreover equal the
exact product of the coin amount with `10^8`. (`get_balance` sums two
integer fields, so its result is an integer by construction.) -/
theorem C4_amended_amounts_integral :
    (∀ (response : TxResponse) (tx : Transaction),
        get_transaction response = .ok tx →
        (∀ e ∈ response.vin, e.value.IsInt) →
        (∀ e ∈ response.vout, -8 ≤ e.value.exp) →
        -8 ≤ response.valueIn.exp → -8 ≤ response.valueOut.exp → -8 ≤ response.fees.exp →
        (∀ p ∈ tx.inputs, p.amount.IsInt) ∧ (∀ p ∈ tx.outputs, p.amount.IsInt) ∧
        tx.amount_in.IsInt ∧ tx.amount_out.IsInt ∧ tx.amount_fee.IsInt) ∧
    (∀ (response : TxResponse) (i : Nat) (d : Decimal),
        (∀ e ∈ response.vout, -8 ≤ e.value.exp) →
        get_tx_amount response i = .ok d → d.IsInt) ∧
    (∀ (response : UnspentResponse) (u : Unspent), u ∈ get_unspent response →
        (∀ e ∈ response.utxos, -8 ≤ e.amount.exp) →
        ∃ e ∈ response.utxos, ((u.amount : ℤ) : ℚ) = e.amount.toRat * 100000000) := by
  refine ⟨?_, ?_, ?_⟩
  · intro response tx hok hvin hvout hin hout hfees
    obtain ⟨hins, houts, hain, haout, hafee⟩ := get_transaction_ok response tx hok
    refine ⟨?_, ?_, ?_, ?_, ?_⟩
    · intro p hp
      rw [hins] at hp
      obtain ⟨e, he, rfl⟩ := List.mem_map.mp hp
      exact hvin e he
    · intro p hp
      obtain ⟨e, he, hmk⟩ := buildOutputs_ok_mem response.vout tx.outputs houts p hp
      rw [mkOutputPart_ok_amount e p hmk]
      exact toSatoshis_isInt _ (hvout e he)
    · exact hain ▸ toSatoshis_isInt _ hin
    · exact haout ▸ toSatoshis_isInt _ hout
    · exact hafee ▸ toSatoshis_isInt _ hfees
  · intro response i d hvout hok
    unfold get_tx_amount at hok
    cases hg : response.vout.get? i with
    | none => rw [hg] at hok; cases hok
    | some entry =>
      rw [hg] at hok
      cases hok
      exact toSatoshis_isInt _ (hvout entry (List.get?_mem hg))
  · intro response u hu hamt
    simp only [get_unspent, List.mem_map] at hu
    obtain ⟨e, he, rfl⟩ := hu
    exact ⟨e, he, currency_to_satoshi_exact e.amount (hamt e he)⟩

/-- Witness for the amended C4: `get_tx_amount` on a concrete response
with one `vout` entry of value `2.5` yields the integral decimal
`25E+7`. -/
theorem C4_amended_amounts_integral_witness :
    (Decimal.mk 25 7).IsInt :=
  C4_amended_amounts_integral.2.1
    (TxResponse.mk "t" 1 ⟨0, 0⟩ ⟨0, 0⟩ ⟨0, 0⟩ [] [⟨⟨25, -1⟩, ⟨"asm", Option.none⟩⟩])
    0 ⟨25, 7⟩ (by decide) (by rfl)

/-- C5: constructing the client from a string succeeds, storing the
endpoint unchanged, exactly when the string starts with `"http"` and ends
with `"/v2/"`; every other string is rejected with
`InvalidEndpointURLProvided`. -/
theorem C5_init_validates_endpoint (s : List Char) :
    (BitcoinDotComAPI.init (.str s) = .ok ⟨s⟩ ↔
      ("http".toList <+: s ∧ "/v2/".toList <:+ s)) ∧
    (¬("http".toList <+: s ∧ "/v2/".toList <:+ s) →
      BitcoinDotComAPI.init (.str s) = .error .invalidEndpointURLProvided) := by
  have hpre : ("http".toList <+: s) ↔ s.take 4 = "http".toList := by
    rw [List.prefix_iff_eq_take, show ("http".toList).length = 4 from rfl, eq_comm]
  have hsuf : ("/v2/".toList <:+ s) ↔ s.drop (s.length - 4) = "/v2/".toList := by
    rw [List.suffix_iff_eq_drop, show ("/v2/".toList).length = 4 from rfl, eq_comm]
  have hvalid : valid_endpoint s = true ↔
      ("http".toList <+: s ∧ "/v2/".toList <:+ s) := by
    rw [hpre, hsuf]
    simp [valid_endpoint]
  constructor
  · constructor
    · intro h
      apply hvalid.mp
      by_contra hv
      have hv2 : valid_endpoint s = false := by simpa using hv
      simp [BitcoinDotComAPI.init, hv2] at h
    · intro h
      simp [BitcoinDotComAPI.init, hvalid.mpr h]
  · intro h
    have hv : ¬valid_endpoint s = true := fun hv => h (hvalid.mp hv)
    simp [BitcoinDotComAPI.init, hv]

/-- Witness for C5: a well-shaped endpoint is accepted verbatim and a
mis-shaped one is rejected. -/
theorem C5_init_validates_endpoint_witness :
    BitcoinDotComAPI.init (.str "https://example.com/v2/".toList)
        = .ok ⟨"https://example.com/v2/".toList⟩ ∧
    BitcoinDotComAPI.init (.str "https://example.com".toList)
        = .error .invalidEndpointURLProvided :=
  ⟨(C5_init_validates_endpoint "https://example.com/v2/".toList).1.mpr
      ⟨by decide, by decide⟩,
   (C5_init_validates_endpoint "https://example.com".toList).2 (by decide)⟩

/-- C6: `get_tx_amount` raises `IndexError` for every index at or past
the length of `vout`, and returns the converted `value` of `vout[i]` for
every index below it. -/
theorem C6_get_tx_amount_index_range (response : TxResponse) (i : Nat) :
    (response.vout.length ≤ i → get_tx_amount response i = .error .indexError) ∧
    ∀ hi : i < response.vout.length,
      get_tx_amount response i = .ok (toSatoshis (response.vout.get ⟨i, hi⟩).value) := by
  constructor
  · intro h
    unfold get_tx_amount
    rw [List.get?_eq_none.mpr h]
  · intro hi
    unfold get_tx_amount
    rw [List.get?_eq_get hi]

/-- Witness for C6: on a response with two outputs, index 5 raises and
index 0 returns the converted first output value. -/
theorem C6_get_tx_amount_index_range_witness :
    get_tx_amount
        (TxResponse.mk "t" 0 ⟨0, 0⟩ ⟨0, 0⟩ ⟨0, 0⟩ []
          [⟨⟨1, 0⟩, ⟨"a", Option.none⟩⟩, ⟨⟨2, 0⟩, ⟨"b", Option.none⟩⟩]) 5
      = .error .indexError :=
  (C6_get_tx_amount_index_range
    (TxResponse.mk "t" 0 ⟨0, 0⟩ ⟨0, 0⟩ ⟨0, 0⟩ []
      [⟨⟨1, 0⟩, ⟨"a", Option.none⟩⟩, ⟨⟨2, 0⟩, ⟨"b", Option.none⟩⟩]) 5).1 (by decide)

/-- C7: a transaction built by `get_transaction` has exactly one input
part per `vin` entry and one output part per `vout` entry, in the order
of the source arrays: the `i`-th input part is built from the `i`-th
`vin` entry and the `i`-th output part from the `i`-th `vout` entry. -/
theorem C7_parts_in_source_order (response : TxResponse) (tx : Transaction)
    (hok : get_transaction response = .ok tx) :
    tx.inputs.length = response.vin.length ∧
    tx.outputs.length = response.vout.length ∧
    (∀ i : Nat, tx.inputs.get? i = (response.vin.get? i).map mkInputPart) ∧
    (∀ (i : Nat) (hi : i < response.vout.length) (hp : i < tx.outputs.length),
        mkOutputPart (response.vout.get ⟨i, hi⟩) = .ok (tx.outputs.get ⟨i, hp⟩)) := by
  obtain ⟨hins, houts, -, -, -⟩ := get_transaction_ok response tx hok
  refine ⟨by simp [hins], buildOutputs_ok_length _ _ houts, ?_, ?_⟩
  · intro i
    rw [hins]
    simp [List.get?_eq_getElem?, List.getElem?_map]
  · intro i hi hp
    exact buildOutputs_ok_get _ _ houts i hi hp

/-- A concrete one-input, one-output response for the C7 witness. -/
def c7Response : TxResponse :=
  { txid := "t", blockheight := 0, valueIn := ⟨0, 0⟩, valueOut := ⟨0, 0⟩, fees := ⟨0, 0⟩,
    vin := [⟨"inAddr", ⟨1, 0⟩, "sig"⟩],
    vout := [⟨⟨1, 0⟩, ⟨"outAsm", some (some ["outAddr"])⟩⟩] }

/-- The transaction `get_transaction` builds from `c7Response`. -/
def c7Tx : Transaction :=
  { txid := "t", blockheight := 0, amount_in := ⟨0, 0⟩, amount_out := ⟨0, 0⟩,
    amount_fee := ⟨0, 0⟩,
    inputs := [⟨some "inAddr", ⟨1, 0⟩, "sig"⟩],
    outputs := [⟨some "outAddr", ⟨1, 8⟩, "outAsm"⟩] }

/-- Witness for C7 at the concrete one-input, one-output response. -/
theorem C7_parts_in_source_order_witness :
    c7Tx.inputs.length = c7Response.vin.length ∧
    c7Tx.outputs.length = c7Response.vout.length ∧
    (∀ i : Nat, c7Tx.inputs.get? i = (c7Response.vin.get? i).map mkInputPart) ∧
    (∀ (i : Nat) (hi : i < c7Response.vout.length) (hp : i < c7Tx.outputs.length),
        mkOutputPart (c7Response.vout.get ⟨i, hi⟩) = .ok (c7Tx.outputs.get ⟨i, hp⟩)) :=
  C7_parts_in_source_order c7Response c7Tx (by rfl)

/-- C8: the address of the output part built from a `vout` entry is
absent both when the `cashAddrs` key is missing and when it is null, and
is the first element of `cashAddrs` when that key holds a list. -/
theorem C8_output_address_from_cashAddrs (response : TxResponse) (tx : Transaction)
    (hok : get_transaction response = .ok tx) (i : Nat) (hi : i < response.vout.length) :
    ∃ hp : i < tx.outputs.length,
      ((response.vout.get ⟨i, hi⟩).scriptPubKey.cashAddrs = Option.none →
        (tx.outputs.get ⟨i, hp⟩).address = Option.none) ∧
      ((response.vout.get ⟨i, hi⟩).scriptPubKey.cashAddrs = some Option.none →
        (tx.outputs.get ⟨i, hp⟩).address = Option.none) ∧
      (∀ (a : String) (rest : List String),
        (response.vout.get ⟨i, hi⟩).scriptPubKey.cashAddrs = some (some (a :: rest)) →
        (tx.outputs.get ⟨i, hp⟩).address = some a) ∧
      (response.vout.get ⟨i, hi⟩).scriptPubKey.cashAddrs ≠ some (some []) := by
  obtain ⟨-, houts, -, -, -⟩ := get_transaction_ok response tx hok
  have hlen := buildOutputs_ok_length _ _ houts
  have hp : i < tx.outputs.length := by omega
  have hget := buildOutputs_ok_get _ _ houts i hi hp
  refine ⟨hp, ?_, ?_, ?_, ?_⟩
  · intro hca
    simp only [mkOutputPart, hca] at hget
    injection hget with h
    rw [← h]
  · intro hca
    simp only [mkOutputPart, hca] at hget
    injection hget with h
    rw [← h]
  · intro a rest hca
    simp only [mkOutputPart, hca] at hget
    injection hget with h
    rw [← h]
  · intro hca
    simp only [mkOutputPart, hca] at hget
    cases hget

/-- Witness for C8 at the concrete one-output response `c7Response`-like
document whose `cashAddrs` holds a list. -/
theorem C8_output_address_from_cashAddrs_witness :
    ∃ hp : 0 < c7Tx.outputs.length,
      ((c7Response.vout.get ⟨0, by decide⟩).scriptPubKey.cashAddrs = Option.none →
        (c7Tx.outputs.get ⟨0, hp⟩).address = Option.none) ∧
      ((c7Response.vout.get ⟨0, by decide⟩).scriptPubKey.cashAddrs = some Option.none →
        (c7Tx.outputs.get ⟨0, hp⟩).address = Option.none) ∧
      (∀ (a : String) (rest : List String),
        (c7Response.vout.get ⟨0, by decide⟩).scriptPubKey.cashAddrs = some (some (a :: rest)) →
        (c7Tx.outputs.get ⟨0, hp⟩).address = some a) ∧
      (c7Response.vout.get ⟨0, by decide⟩).scriptPubKey.cashAddrs ≠ some (some []) :=
  C8_output_address_from_cashAddrs c7Response c7Tx (by rfl) 0 (by decide)

/-- C9: `make_endpoint_url` is deterministic and returns the plain
concatenation of the stored endpoint with the path template; for the
endpoint `"https://example.com/v2/"` and path key `"address"`,
substituting `"bchtest:xyz"` yields
`"https://example.com/v2/address/details/bchtest:xyz"`. -/
theorem C9_make_endpoint_url_concat (api : BitcoinDotComAPI) (path template : List Char)
    (h : PATHS path = some template) :
    api.make_endpoint_url path = some (api.network_endpoint ++ template) ∧
    ((BitcoinDotComAPI.mk "https://example.com/v2/".toList).make_endpoint_url
        "address".toList).map (fun u => pyFormat u "bchtest:xyz".toList)
      = some "https://example.com/v2/address/details/bchtest:xyz".toList := by
  refine ⟨?_, by decide⟩
  simp [BitcoinDotComAPI.make_endpoint_url, h]

/-- Witness for C9 at the path key `"address"`. -/
theorem C9_make_endpoint_url_concat_witness :
    (BitcoinDotComAPI.mk "https://example.com/v2/".toList).make_endpoint_url
        "address".toList
      = some ("https://example.com/v2/".toList ++ "address/details/\x7b\x7d".toList) ∧
    ((BitcoinDotComAPI.mk "https://example.com/v2/".toList).make_endpoint_url
        "address".toList).map (fun u => pyFormat u "bchtest:xyz".toList)
      = some "https://example.com/v2/address/details/bchtest:xyz".toList :=
  C9_make_endpoint_url_concat (BitcoinDotComAPI.mk "https://example.com/v2/".toList)
    "address".toList "address/details/\x7b\x7d".toList (by decide)

/-- C10: a non-string endpoint argument fails the constructor's
`isinstance` assertion, which is caught and re-raised as
`InvalidEndpointURLProvided` — the same error as for a malformed URL
string, not a type error. -/
theorem C10_nonstring_endpoint_rejected (v : PyVal) (h : ∀ s : List Char, v ≠ PyVal.str s) :
    BitcoinDotComAPI.init v = .error .invalidEndpointURLProvided := by
  cases v with
  | str s => exact absurd rfl (h s)
  | int n => rfl
  | none => rfl

/-- Witness for C10 at the integer argument `3`. -/
theorem C10_nonstring_endpoint_rejected_witness :
    BitcoinDotComAPI.init (PyVal.int 3) = .error .invalidEndpointURLProvided :=
  C10_nonstring_endpoint_rejected (PyVal.int 3) (fun _ h => PyVal.noConfusion h)

end Bitcash
